import Mathlib

/-!
Verification development for the tutor-plugin learning core.

The definitions below are a shallow embedding of the Python modules
`server/learning/spaced_repetition.py`, `server/learning/prerequisites.py`
and `server/learning/study_planner.py`.  Python floats are modelled as
exact rationals (`ℚ`), Python ints as `ℤ` (or `ℕ` where the quantity is a
count), and fallible code paths (Python exceptions such as
`ZeroDivisionError`) as `Except`.  Calendar dates are modelled as integer
day offsets from "today"; a `date.weekday()` value is recovered from a
`todayWeekday` parameter as `(todayWeekday + offset) % 7`.
-/


namespace SRS

/-- SM-2 state of a review item (`ReviewItem` in `spaced_repetition.py`).
Timestamp fields (`last_review`, `next_review`, `created_at`) and the
identifying strings are omitted: no property below depends on them. -/
structure Item where
  easinessFactor : ℚ
  intervalDays : ℤ
  repetitionCount : ℕ
  totalReviews : ℕ
  correctReviews : ℕ
deriving DecidableEq

/-- The item created by `add_item`: `easiness_factor=2.5`, `interval_days=1`,
`repetition_count=0`, zero review counters. -/
def freshItem : Item :=
  { easinessFactor := 5/2, intervalDays := 1, repetitionCount := 0
    totalReviews := 0, correctReviews := 0 }

/-- The quality clamp `max(0, min(5, quality))` in `record_review`. -/
def clampQuality (q : ℤ) : ℤ := max 0 (min 5 q)

/-- Python's `max` on two rationals, written so that it evaluates by
kernel reduction. -/
def ratMax (a b : ℚ) : ℚ := if a ≤ b then b else a

/-- Python's `math.ceil` on a rational, written so that it evaluates by
kernel reduction. -/
def ratCeil (q : ℚ) : ℤ := -Rat.floor (-q)

/-- The easiness update
`max(1.3, E + (0.1 - (5 - q) * (0.08 + (5 - q) * 0.02)))`. -/
def updatedEasiness (e : ℚ) (q : ℤ) : ℚ :=
  ratMax (13/10) (e + (1/10 - (5 - (q : ℚ)) * (8/100 + (5 - (q : ℚ)) * (2/100))))

/-- One step of `SpacedRepetitionSystem.record_review` on the item's SM-2
state (the item is assumed registered; the `ValueError` path for unknown
ids is outside this state transition). -/
def recordReview (it : Item) (quality : ℤ) : Item :=
  let q := clampQuality quality
  let it1 : Item :=
    { it with
      totalReviews := it.totalReviews + 1
      correctReviews := if 3 ≤ q then it.correctReviews + 1 else it.correctReviews }
  if q < 3 then
    { it1 with repetitionCount := 0, intervalDays := 1 }
  else
    let e := updatedEasiness it1.easinessFactor q
    let i : ℤ :=
      if it1.repetitionCount = 0 then 1
      else if it1.repetitionCount = 1 then 6
      else ratCeil ((it1.intervalDays : ℚ) * e)
    { it1 with easinessFactor := e, intervalDays := i
               repetitionCount := it1.repetitionCount + 1 }

/-- Folding a sequence of `record_review` calls over an item. -/
def reviewAll (it : Item) (qs : List ℤ) : Item := qs.foldl recordReview it

/-- The classifier `quality_from_exercise_result(score, attempts)`. -/
def qualityFromExerciseResult (score : ℕ) (attempts : ℕ) : ℕ :=
  if 3 < attempts then
    if 80 ≤ score then 3
    else if 50 ≤ score then 2
    else 1
  else if 95 ≤ score then 5
  else if 80 ≤ score then 4
  else if 60 ≤ score then 3
  else if 40 ≤ score then 2
  else if 0 < score then 1
  else 0

/-- Reachability invariant for SM-2 states produced from a fresh item:
positive interval, interval 1 while the repetition count is 0 or 1, and
easiness at least 1.3. -/
def Inv (it : Item) : Prop :=
  1 ≤ it.intervalDays ∧
    (it.repetitionCount = 0 → it.intervalDays = 1) ∧
    (it.repetitionCount = 1 → it.intervalDays = 1) ∧
    13/10 ≤ it.easinessFactor

/-- Amended §6 quality table: score 0 maps to quality 0 only when
`attempts ≤ 3`; the `attempts > 3` rows take precedence and send every
score below 50 (including 0) to quality 1. -/
def qualityTableAmended (score : ℕ) (attempts : ℕ) : ℕ :=
  if attempts ≤ 3 then
    if score = 0 then 0
    else if 95 ≤ score then 5
    else if 80 ≤ score then 4
    else if 60 ≤ score then 3
    else if 40 ≤ score then 2
    else 1
  else
    if 80 ≤ score then 3
    else if 50 ≤ score then 2
    else 1

end SRS

namespace Prereqs

/-- Completion status of a prerequisite topic
(`PrerequisiteStatus` in `prerequisites.py`). -/
inductive PrereqStatus where
  | notStarted
  | inProgress
  | completed
  | needsReview
deriving DecidableEq

/-- A prerequisite edge (`Prerequisite` in `prerequisites.py`); the
`importance` and `inferred` fields play no role in `check_readiness` or
`_topological_sort` and are omitted. -/
structure Prereq where
  sourceTopic : String
  relationshipType : String
deriving DecidableEq

/-- Readiness classification (`ReadinessLevel` in `prerequisites.py`). -/
inductive ReadinessLevel where
  | ready
  | mostlyReady
  | notReady
  | blocked
deriving DecidableEq

/-- Result of `check_readiness`.  The Python field `prerequisites_partial`
is called `pending` here because its name is a Lean keyword; `topic_title`
and `suggestions` (pure display strings) are omitted. -/
structure TopicReadiness where
  readiness : ReadinessLevel
  met : List String
  missing : List String
  pending : List String
  confidence : ℚ
  prepMinutes : ℕ
deriving DecidableEq

/-- The classification loop of `check_readiness`: each prerequisite's
source topic goes to `met` (completed), `missing` (not started) or
`pending` (in progress / needs review), preserving list order. -/
def classify (statusOf : String → PrereqStatus) :
    List Prereq → List String × List String × List String
  | [] => ([], [], [])
  | p :: rest =>
    let r := classify statusOf rest
    match statusOf p.sourceTopic with
    | .completed => (p.sourceTopic :: r.1, r.2.1, r.2.2)
    | .notStarted => (r.1, p.sourceTopic :: r.2.1, r.2.2)
    | _ => (r.1, r.2.1, p.sourceTopic :: r.2.2)

/-- `required_missing` in `check_readiness`: sources of `required`
prerequisites that landed in the missing list. -/
def requiredMissing (prereqs : List Prereq) (statusOf : String → PrereqStatus) :
    List String :=
  (((prereqs.filter (fun p => p.relationshipType == "required")).filter
    (fun p => (classify statusOf prereqs).2.1.contains p.sourceTopic)).map
      (fun p => p.sourceTopic))

/-- `check_readiness` from `prerequisites.py`, with its exact branch
order: all-met first, then required-missing, then missing, then pending. -/
def checkReadiness (prereqs : List Prereq) (statusOf : String → PrereqStatus) :
    TopicReadiness :=
  let met := (classify statusOf prereqs).1
  let missing := (classify statusOf prereqs).2.1
  let pending := (classify statusOf prereqs).2.2
  let reqMiss := requiredMissing prereqs statusOf
  let prep := missing.length * 30 + pending.length * 15
  if missing = [] ∧ pending = [] then
    ⟨.ready, met, missing, pending, 1, prep⟩
  else if ¬ reqMiss = [] then
    ⟨.blocked, met, missing, pending, 1/5, prep⟩
  else if ¬ missing = [] then
    ⟨.notReady, met, missing, pending, 2/5, prep⟩
  else if ¬ pending = [] then
    ⟨.mostlyReady, met, missing, pending, 7/10, prep⟩
  else
    ⟨.ready, met, missing, pending, 9/10, prep⟩

/-- The spec's decision table, evaluated in the spec's order: required
missing → blocked; else missing → not_ready; else partial → mostly_ready;
else ready. -/
def levelTable (missing pending reqMiss : List String) : ReadinessLevel :=
  if ¬ reqMiss = [] then .blocked
  else if ¬ missing = [] then .notReady
  else if ¬ pending = [] then .mostlyReady
  else .ready

/-- The spec's fixed per-level confidence. -/
def confidenceTable : ReadinessLevel → ℚ
  | .ready => 1
  | .mostlyReady => 7/10
  | .notReady => 2/5
  | .blocked => 1/5

/-- Adjacency list of the graph built at the start of `_topological_sort`:
`graph[source]` receives `topic` once for every prerequisite entry of
`topic` whose source lies in the topic set, in topic-iteration order. -/
def adjacency (topics : List String) (prereqsOf : String → List Prereq)
    (s : String) : List String :=
  topics.flatMap fun t =>
    ((prereqsOf t).filter fun p =>
      p.sourceTopic == s && topics.contains p.sourceTopic).map fun _ => t

/-- In-degree over prerequisite edges whose source lies in the topic set. -/
def inDegree (topics : List String) (prereqsOf : String → List Prereq)
    (t : String) : ℤ :=
  ((prereqsOf t).filter fun p => topics.contains p.sourceTopic).length

/-- The while-loop of Kahn's algorithm in `_topological_sort`: pop the
queue head, emit it, decrement the in-degree of each neighbour and enqueue
those that reach zero.  The fuel bounds the number of pops; each node is
enqueued at most once, so `2 × |topics| + 1` pops always suffice. -/
def kahnLoop (adj : String → List String) :
    ℕ → List String → (String → ℤ) → List String
  | 0, _, _ => []
  | _, [], _ => []
  | fuel + 1, node :: rest, deg =>
    let st := (adj node).foldl
      (fun (st : List String × (String → ℤ)) nb =>
        let d := st.2 nb - 1
        (if d = 0 then st.1 ++ [nb] else st.1, Function.update st.2 nb d))
      (rest, deg)
    node :: kahnLoop adj fuel st.1 st.2

/-- `_topological_sort(target, all_prereqs)` from `prerequisites.py`.
Python iterates a set `all_prereqs | {target}`; set-iteration order is
unspecified, so the topic list stands for one enumeration of that set. -/
def topologicalSort (target : String) (allPrereqs : List String)
    (prereqsOf : String → List Prereq) : List String :=
  let topics := if allPrereqs.contains target then allPrereqs
                else allPrereqs ++ [target]
  let deg := inDegree topics prereqsOf
  let queue := topics.filter fun t => deg t == 0
  kahnLoop (adjacency topics prereqsOf) (2 * topics.length + 1) queue deg

/-- The cyclic two-topic dependency map: A requires B and B requires A. -/
def cyclicPair : String → List Prereq := fun t =>
  if t == "A" then [⟨"B", "required"⟩]
  else if t == "B" then [⟨"A", "required"⟩]
  else []

end Prereqs

/-- Stable insertion used to model Python's stable `sorted`: `a` is placed
before the first element `b` with `le a b = true`, so elements comparing
equal keep their original relative order. -/
def insertBy (le : α → α → Bool) (a : α) : List α → List α
  | [] => [a]
  | b :: l => if le a b then a :: b :: l else b :: insertBy le a l

/-- Stable sort modelling Python's `sorted` (and `list.sort`). -/
def sortBy (le : α → α → Bool) : List α → List α
  | [] => []
  | a :: l => insertBy le a (sortBy le l)

namespace Planner

/-- `TopicStatus` from `university_context.py`. -/
inductive TopicStatus where
  | new
  | inProgress
  | learned
  | reinforcing
  | mastered
  | rusty
  | extending
deriving DecidableEq

/-- `SessionType` from `study_planner.py`. -/
inductive SessionType where
  | learnNew
  | reinforce
  | extend
  | reviewSRS
  | examPrep
  | simulate
  | rest
deriving DecidableEq

/-- `ExamInfo` from `university_context.py`.  The exam date is carried as
`days_until` (exam date minus today, in days); name, type, grade weight and
location do not enter the planning algorithms. -/
structure ExamInfo where
  daysUntil : ℤ
  durationMinutes : ℤ
  topicsIncluded : List String
deriving DecidableEq

/-- `SyllabusUnit` from `university_context.py` (fields consumed by the
planner; `weight` is the exam percentage 0–100). -/
structure SyllabusUnit where
  id : String
  name : String
  weight : ℚ
  estimatedHours : ℚ
  order : ℤ
deriving DecidableEq

/-- `LearnerProfile` fields consumed by the planner.  `studyDays` holds the
weekday numbers 0–6 produced by applying `day_map` to the profile's day
strings. -/
structure LearnerProfile where
  hoursPerWeek : ℚ
  preferredSessionMinutes : ℤ
  studyDays : List ℕ
  preferredTime : String
deriving DecidableEq

/-- `UniversityConfig` fields consumed by the planner. -/
structure UniversityConfig where
  exams : List ExamInfo
  syllabusUnits : List SyllabusUnit
  learnerProfile : LearnerProfile
deriving DecidableEq

/-- `UniversityConfig.next_exam`: the future exam (days_until ≥ 0) with the
smallest days_until; Python's `min` keeps the first minimum. -/
def nextExam (exams : List ExamInfo) : Option ExamInfo :=
  (exams.filter fun e => decide (0 ≤ e.daysUntil)).foldl
    (fun acc e => match acc with
      | none => some e
      | some b => if e.daysUntil < b.daysUntil then some e else some b)
    none

/-- A planned session (`StudySession` in `study_planner.py`); the `date`
is a day offset from today.  `description`, completion fields and notes are
pure presentation state and are omitted. -/
structure StudySession where
  id : String
  date : ℤ
  startTime : Option String
  durationMinutes : ℤ
  sessionType : SessionType
  topicId : Option String
  topicName : Option String
  priority : ℤ
deriving DecidableEq

/-- `StudyPlan` fields produced by `generate_plan` (identifier and
timestamps are wall-clock metadata, outside the embedding). -/
structure StudyPlan where
  targetExam : Option ExamInfo
  sessions : List StudySession
  totalHoursPlanned : ℚ
  strategy : String
  confidenceScore : ℚ
deriving DecidableEq

/-- Python exceptions raised by the modelled code paths. -/
inductive PyErr where
  | zeroDivision
deriving DecidableEq

/-- Python's `int()` applied to a float: truncation toward zero. -/
def pyInt (q : ℚ) : ℤ := if q < 0 then SRS.ratCeil q else Rat.floor q

/-- The `status_priority` table of `_prioritize_topics`;
`reinforcing`/`extending` are absent from the dict and get the
`.get(status, 0)` default. -/
def statusPriority : TopicStatus → ℚ
  | .rusty => 50
  | .inProgress => 40
  | .new => 30
  | .learned => 10
  | .mastered => 0
  | _ => 0

/-- `calculate_priority` inside `_prioritize_topics`, with the source's
accumulation order: weight, status, order tiebreak, exam bonus. -/
def calculatePriority (statusOf : String → TopicStatus) (exam : Option ExamInfo)
    (t : SyllabusUnit) : ℚ :=
  let p1 := 0 + t.weight * 2
  let p2 := p1 + statusPriority (statusOf t.id)
  let p3 := p2 - t.order * (1/2)
  match exam with
  | some e => if e.topicsIncluded.contains t.id then p3 + 30 else p3
  | none => p3

/-- `_prioritize_topics`: stable sort by priority, descending
(`sorted(..., key=calculate_priority, reverse=True)`). -/
def prioritizeTopics (topics : List SyllabusUnit)
    (statusOf : String → TopicStatus) (exam : Option ExamInfo) :
    List SyllabusUnit :=
  sortBy (fun a b =>
    decide (calculatePriority statusOf exam b ≤ calculatePriority statusOf exam a)) topics

/-- `_get_topics_to_cover`: syllabus units whose status is new,
in_progress or rusty. -/
def topicsToCover (units : List SyllabusUnit)
    (statusOf : String → TopicStatus) : List SyllabusUnit :=
  units.filter fun u =>
    [TopicStatus.new, TopicStatus.inProgress, TopicStatus.rusty].contains (statusOf u.id)

/-- Session type chosen from the topic status in `_generate_sessions`. -/
def sessionTypeFor : TopicStatus → SessionType
  | .new => .learnNew
  | .rusty => .reviewSRS
  | .learned => .reinforce
  | _ => .learnNew

/-- Placeholder unit for the guarded list access in the day loop: the
loop condition bounds `topicIdx` by the list length, so this default is
never read. -/
def defaultUnit : SyllabusUnit := ⟨"", "", 0, 0, 0⟩

/-- Mutable state threaded through `_generate_sessions`: next session id,
index into the prioritized topic list, remaining hours per topic id. -/
structure GenState where
  sessionId : ℕ
  topicIdx : ℕ
  remaining : String → ℚ

/-- The per-day `while` loop of `_generate_sessions`: allocate slices of
`min(session_duration, daily_minutes - minutes_planned, remaining topic
minutes)`, skipping slices below 15 minutes, advancing the topic index when
a topic's remaining hours reach zero.  Each iteration consumes one unit of
fuel; a skip advances the index and an emission adds ≥ 15 planned minutes,
so `|topics| + max 0 daily + 2` fuel always runs the loop to completion. -/
def dayLoop (sortedTopics : List SyllabusUnit) (statusOf : String → TopicStatus)
    (dailyMinutes sessionDuration : ℤ) (startTime : String) (currentDate : ℤ) :
    ℕ → GenState → ℚ → List StudySession × GenState
  | 0, st, _ => ([], st)
  | fuel + 1, st, minutesPlanned =>
    if minutesPlanned < (dailyMinutes : ℚ) ∧ st.topicIdx < sortedTopics.length then
      let topic := sortedTopics.getD st.topicIdx defaultUnit
      let remainingTopicMinutes := st.remaining topic.id * 60
      let available := min (min (sessionDuration : ℚ)
        ((dailyMinutes : ℚ) - minutesPlanned)) remainingTopicMinutes
      if available < 15 then
        dayLoop sortedTopics statusOf dailyMinutes sessionDuration startTime
          currentDate fuel { st with topicIdx := st.topicIdx + 1 } minutesPlanned
      else
        let sess : StudySession :=
          { id := "session_" ++ toString st.sessionId
            date := currentDate
            startTime := some startTime
            durationMinutes := pyInt available
            sessionType := sessionTypeFor (statusOf topic.id)
            topicId := some topic.id
            topicName := some topic.name
            priority := (st.topicIdx : ℤ) + 1 }
        let newRem := st.remaining topic.id - available / 60
        let st1 : GenState :=
          { sessionId := st.sessionId + 1
            topicIdx := if newRem ≤ 0 then st.topicIdx + 1 else st.topicIdx
            remaining := Function.update st.remaining topic.id newRem }
        let rest := dayLoop sortedTopics statusOf dailyMinutes sessionDuration
          startTime currentDate fuel st1 (minutesPlanned + available)
        (sess :: rest.1, rest.2)
    else ([], st)

/-- Fuel that always suffices for one day's while loop. -/
def dayFuel (sortedTopics : List SyllabusUnit) (dailyMinutes : ℤ) : ℕ :=
  sortedTopics.length + (max 0 dailyMinutes).toNat + 2

/-- The `for day_offset in range(days_available)` loop of
`_generate_sessions`: non-study weekdays are skipped, each study day runs
the while loop with a fresh `minutes_planned = 0`, carrying the state. -/
def daysLoop (sortedTopics : List SyllabusUnit) (statusOf : String → TopicStatus)
    (dailyMinutes sessionDuration : ℤ) (startTime : String)
    (studyDayNums : List ℕ) (todayWeekday : ℕ) :
    ℕ → ℕ → GenState → List StudySession × GenState
  | _, 0, st => ([], st)
  | offset, n + 1, st =>
    if studyDayNums.contains ((todayWeekday + offset) % 7) then
      let day := dayLoop sortedTopics statusOf dailyMinutes sessionDuration
        startTime (offset : ℤ) (dayFuel sortedTopics dailyMinutes) st 0
      let rest := daysLoop sortedTopics statusOf dailyMinutes sessionDuration
        startTime studyDayNums todayWeekday (offset + 1) n day.2
      (day.1 ++ rest.1, rest.2)
    else
      daysLoop sortedTopics statusOf dailyMinutes sessionDuration
        startTime studyDayNums todayWeekday (offset + 1) n st

/-- The exam-simulation block of `_generate_sessions`: when an exam more
than 3 days away exists, fixed sessions at offsets 3, 7, 14 days before the
exam (those that fit) are appended, each with the exam's duration and
priority 0, with no reference to the daily budget. -/
def simulationSessions (exam : Option ExamInfo) : List StudySession :=
  match exam with
  | none => []
  | some e =>
    if 3 < e.daysUntil then
      (([3, 7, 14] : List ℤ).filter fun off => decide (off ≤ e.daysUntil)).map fun off =>
        { id := "session_sim_" ++ toString off
          date := e.daysUntil - off
          startTime := none
          durationMinutes := e.durationMinutes
          sessionType := .simulate
          topicId := none
          topicName := none
          priority := 0 }
    else []

/-- Comparison used for the final `sessions.sort(key=(date, priority))`. -/
def sessionLE (s t : StudySession) : Bool :=
  decide (s.date < t.date ∨ (s.date = t.date ∧ s.priority ≤ t.priority))

/-- `daily_minutes = int(hours_per_day * 60)` with
`hours_per_day = hours_per_week / len(study_days)`. -/
def dailyBudget (hoursPerWeek : ℚ) (studyDaysCount : ℕ) : ℤ :=
  pyInt (hoursPerWeek / (studyDaysCount : ℚ) * 60)

/-- `topic_hours_remaining` as initialised over the prioritized topics. -/
def initialRemaining (sorted : List SyllabusUnit) : String → ℚ :=
  sorted.foldl (fun f t => Function.update f t.id t.estimatedHours) (fun _ => 0)

/-- The greedy daily allocation of `_generate_sessions` (everything before
the simulation block). -/
def regularSessions (topics : List SyllabusUnit) (statusOf : String → TopicStatus)
    (profile : LearnerProfile) (daysAvailable : ℤ) (hoursPerWeek : ℚ)
    (exam : Option ExamInfo) (todayWeekday : ℕ) : List StudySession :=
  (daysLoop (prioritizeTopics topics statusOf exam) statusOf
    (dailyBudget hoursPerWeek profile.studyDays.length)
    profile.preferredSessionMinutes profile.preferredTime profile.studyDays
    todayWeekday 0 (max 0 daysAvailable).toNat
    ⟨0, 0, initialRemaining (prioritizeTopics topics statusOf exam)⟩).1

/-- The session list produced by `_generate_sessions` when the study-day
list is non-empty: greedy daily sessions, then the simulation block, then
the final sort by (date, priority). -/
def sessionsFor (topics : List SyllabusUnit) (statusOf : String → TopicStatus)
    (profile : LearnerProfile) (daysAvailable : ℤ) (hoursPerWeek : ℚ)
    (exam : Option ExamInfo) (todayWeekday : ℕ) : List StudySession :=
  sortBy sessionLE
    (regularSessions topics statusOf profile daysAvailable hoursPerWeek exam todayWeekday
      ++ simulationSessions exam)

/-- `_generate_sessions` from `study_planner.py`.  An empty study-day list
makes `hours_per_week / study_days_per_week` raise `ZeroDivisionError`.
The unused `strategy` parameter of the Python function is dropped. -/
def generateSessions (topics : List SyllabusUnit) (statusOf : String → TopicStatus)
    (profile : LearnerProfile) (daysAvailable : ℤ) (hoursPerWeek : ℚ)
    (exam : Option ExamInfo) (todayWeekday : ℕ) :
    Except PyErr (List StudySession) :=
  if profile.studyDays.length = 0 then .error .zeroDivision
  else .ok (sessionsFor topics statusOf profile daysAvailable hoursPerWeek exam todayWeekday)

/-- `_calculate_confidence`: bucketed confidence from
`available / needed`; `available == 0` short-circuits to 0, and
`needed == 0` with `available ≠ 0` raises `ZeroDivisionError`. -/
def calculateConfidence (hoursNeeded hoursAvailable : ℚ) : Except PyErr ℚ :=
  if hoursAvailable = 0 then .ok 0
  else if hoursNeeded = 0 then .error .zeroDivision
  else
    let r := hoursAvailable / hoursNeeded
    .ok (if 3/2 ≤ r then 95
      else if 6/5 ≤ r then 85
      else if 1 ≤ r then 70
      else if 4/5 ≤ r then 50
      else if 3/5 ≤ r then 30
      else 10)

/-- Target-exam resolution at the top of `generate_plan`: an explicit
argument wins, otherwise the configuration's next exam. -/
def resolveExam (targetExam : Option ExamInfo) (exams : List ExamInfo) :
    Option ExamInfo :=
  match targetExam with
  | some e => some e
  | none => nextExam exams

/-- `days_available`: `max(1, exam.days_until)` with an exam, else the
90-day default horizon. -/
def daysAvailableFor (exam : Option ExamInfo) : ℤ :=
  match exam with
  | some e => max 1 e.daysUntil
  | none => 90

/-- `generate_plan` from `study_planner.py`: resolve the target exam and
hours, compute the horizon and hour totals, escalate the strategy, generate
sessions, then the confidence score, and assemble the plan. -/
def generatePlan (targetExam : Option ExamInfo) (hoursPerWeekArg : Option ℚ)
    (strategy : String) (cfg : UniversityConfig)
    (statusOf : String → TopicStatus) (todayWeekday : ℕ) :
    Except PyErr StudyPlan :=
  let exam := resolveExam targetExam cfg.exams
  let hpw := match hoursPerWeekArg with
    | some h => h
    | none => cfg.learnerProfile.hoursPerWeek
  let daysAvailable : ℤ := daysAvailableFor exam
  let totalHoursAvailable := ((daysAvailable : ℚ) / 7) * hpw
  let topics := topicsToCover cfg.syllabusUnits statusOf
  let totalHoursNeeded := (topics.map SyllabusUnit.estimatedHours).sum
  let strat := if totalHoursAvailable * (3/2) < totalHoursNeeded then "intensive"
    else if totalHoursAvailable < totalHoursNeeded then "exam_focused"
    else strategy
  match generateSessions topics statusOf cfg.learnerProfile daysAvailable hpw
      exam todayWeekday with
  | .error e => .error e
  | .ok sessions =>
    match calculateConfidence totalHoursNeeded totalHoursAvailable with
    | .error e => .error e
    | .ok conf =>
      .ok { targetExam := exam
            sessions := sessions
            totalHoursPlanned := (((sessions.map StudySession.durationMinutes).sum : ℤ) : ℚ) / 60
            strategy := strat
            confidenceScore := conf }

end Planner

/-- Exam 10 days away, 120-minute duration, no listed topics. -/
def simExam10 : Planner.ExamInfo := ⟨10, 120, []⟩

/-- Profile studying every weekday, 60-minute preferred sessions. -/
def dailyProfile : Planner.LearnerProfile := ⟨8, 60, [0, 1, 2, 3, 4, 5, 6], "evening"⟩

/-- One large uncovered topic; every day is a study day. -/
def budgetCfg : Planner.UniversityConfig := ⟨[], [⟨"t", "T", 50, 100, 0⟩], dailyProfile⟩

/-- Config with no syllabus units and a single study day. -/
def zeroHoursCfg : Planner.UniversityConfig := ⟨[], [], ⟨8, 45, [0], "evening"⟩⟩

/-- Config with one uncovered unit and a single study day. -/
def negHoursCfg : Planner.UniversityConfig := ⟨[], [⟨"t", "T", 50, 2, 0⟩], ⟨8, 45, [0], "evening"⟩⟩

/-- A weight-50 syllabus unit with order 0. -/
def weightedUnit : Planner.SyllabusUnit := ⟨"t", "T", 50, 2, 0⟩

/-- Config whose only unit is mastered under the witness status map. -/
def coveredCfg : Planner.UniversityConfig := ⟨[], [⟨"t", "T", 50, 2, 0⟩], ⟨8, 45, [0], "evening"⟩⟩

/-- Config used by the C2 witness: one uncovered unit, one study day. -/
def budgetWitnessCfg : Planner.UniversityConfig :=
  ⟨[], [⟨"t", "T", 50, 2, 0⟩], ⟨8, 45, [0], "evening"⟩⟩


namespace SRS

theorem ratMax_eq_max (a b : ℚ) : ratMax a b = max a b := (max_def a b).symm

theorem ratCeil_eq_ceil (q : ℚ) : ratCeil q = ⌈q⌉ := by
  unfold ratCeil
  have h : Rat.floor (-q) = ⌊-q⌋ := by
    rw [Rat.floor_def, Rat.floor_def']
  rw [h, Int.floor_neg, neg_neg]

theorem inv_freshItem : Inv freshItem := by
  refine ⟨le_refl 1, fun _ => rfl, fun h => by simp [freshItem] at h, ?_⟩
  norm_num [freshItem]

theorem le_updatedEasiness (e : ℚ) (q : ℤ) : 13/10 ≤ updatedEasiness e q := by
  unfold updatedEasiness
  rw [ratMax_eq_max]
  exact le_max_left _ _

theorem inv_recordReview (it : Item) (q : ℤ) (h : Inv it) :
    Inv (recordReview it q) := by
  obtain ⟨h1, h0, hone, he⟩ := h
  unfold recordReview
  by_cases hq : clampQuality q < 3
  · simp only [hq, if_pos, if_true]
    exact ⟨le_refl 1, fun _ => rfl, fun _ => rfl, he⟩
  · simp only [hq, if_false, if_neg]
    by_cases hn0 : it.repetitionCount = 0
    · simp only [hn0, if_pos, if_true]
      refine ⟨le_refl 1, fun hcontra => by simp at hcontra, fun _ => rfl, ?_⟩
      exact le_updatedEasiness _ _
    · by_cases hn1 : it.repetitionCount = 1
      · simp only [hn0, hn1, if_neg, if_false, if_pos, if_true]
        refine ⟨by norm_num, fun hcontra => by simp [hn1] at hcontra,
          fun hcontra => by simp [hn1] at hcontra, le_updatedEasiness _ _⟩
      · simp only [hn0, hn1, if_neg, if_false]
        have hE : (1 : ℚ) ≤ updatedEasiness it.easinessFactor (clampQuality q) := by
          have := le_updatedEasiness it.easinessFactor (clampQuality q)
          linarith
        have hIq : (1 : ℚ) ≤ (it.intervalDays : ℚ) := by exact_mod_cast h1
        have hmul : (1 : ℚ) ≤ (it.intervalDays : ℚ) *
            updatedEasiness it.easinessFactor (clampQuality q) :=
          one_le_mul_of_one_le_of_one_le hIq hE
        have hceil : (1 : ℤ) ≤
            ratCeil ((it.intervalDays : ℚ) * updatedEasiness it.easinessFactor (clampQuality q)) := by
          rw [ratCeil_eq_ceil]
          have := Int.le_ceil ((it.intervalDays : ℚ) *
            updatedEasiness it.easinessFactor (clampQuality q))
          exact_mod_cast le_trans hmul this
        refine ⟨hceil, fun hcontra => by simp at hcontra,
          fun hcontra => by simp [hn0] at hcontra, le_updatedEasiness _ _⟩

theorem inv_reviewAll (qs : List ℤ) (it : Item) (h : Inv it) :
    Inv (reviewAll it qs) := by
  induction qs generalizing it with
  | nil => exact h
  | cons q qs ih => exact ih _ (inv_recordReview it q h)

theorem clampQuality_ge_three {q : ℤ} (h : 3 ≤ q) : 3 ≤ clampQuality q := by
  unfold clampQuality
  rcases le_total 5 q with h5 | h5
  · have : min 5 q = 5 := min_eq_left h5
    rw [this]; norm_num
  · have : min 5 q = q := min_eq_right h5
    rw [this]; exact le_trans h (le_max_right _ _)

theorem interval_mono_step (it : Item) (q : ℤ) (hinv : Inv it) (hq : 3 ≤ q) :
    it.intervalDays ≤ (recordReview it q).intervalDays := by
  obtain ⟨h1, h0, hone, he⟩ := hinv
  have hc := clampQuality_ge_three hq
  unfold recordReview
  have hnlt : ¬ clampQuality q < 3 := not_lt.mpr hc
  simp only [hnlt, if_false, if_neg]
  by_cases hn0 : it.repetitionCount = 0
  · simp only [hn0, if_pos, if_true]
    exact le_of_eq (h0 hn0)
  · by_cases hn1 : it.repetitionCount = 1
    · simp only [hn0, hn1, if_neg, if_false, if_pos, if_true]
      rw [hone hn1]; norm_num
    · simp only [hn0, hn1, if_neg, if_false]
      have hE : (1 : ℚ) ≤ updatedEasiness it.easinessFactor (clampQuality q) := by
        have := le_updatedEasiness it.easinessFactor (clampQuality q)
        linarith
      have hI0 : (0 : ℚ) ≤ (it.intervalDays : ℚ) := by
        have : (0 : ℤ) ≤ it.intervalDays := le_trans (by norm_num) h1
        exact_mod_cast this
      have hmul : (it.intervalDays : ℚ) ≤ (it.intervalDays : ℚ) *
          updatedEasiness it.easinessFactor (clampQuality q) :=
        le_mul_of_one_le_right hI0 hE
      rw [ratCeil_eq_ceil]
      have := Int.le_ceil ((it.intervalDays : ℚ) *
        updatedEasiness it.easinessFactor (clampQuality q))
      exact_mod_cast le_trans hmul this

theorem chain_intervals (qs : List ℤ) (it : Item) (hinv : Inv it)
    (hq : ∀ q ∈ qs, 3 ≤ q) :
    List.Chain' (· ≤ ·) ((List.scanl recordReview it qs).map Item.intervalDays) := by
  induction qs generalizing it with
  | nil => simp [List.scanl]
  | cons q qs ih =>
    have hq1 : 3 ≤ q := hq q (List.mem_cons_self q qs)
    have hqs : ∀ x ∈ qs, 3 ≤ x := fun x hx => hq x (List.mem_cons_of_mem q hx)
    have hinv' : Inv (recordReview it q) := inv_recordReview it q hinv
    have htail := ih (recordReview it q) hinv' hqs
    simp only [List.scanl, List.map]
    rcases qs with _ | ⟨q2, qs2⟩
    · simp [List.scanl, interval_mono_step it q hinv hq1]
    · simp only [List.scanl, List.map] at htail ⊢
      exact List.Chain'.cons (interval_mono_step it q hinv hq1) htail

end SRS

/-- C1 counterexample: three `record_review` calls with quality 5 on a fresh
item yield intervals 1, 6, 17 — the third interval is 17, not 16 as the
claim states, because the easiness factor has already grown to 2.8 when the
third interval is computed, and ceil(6 × 2.8) = 17. -/
theorem c1_counterexample :
    (SRS.recordReview SRS.freshItem 5).intervalDays = 1 ∧
    (SRS.recordReview (SRS.recordReview SRS.freshItem 5) 5).intervalDays = 6 ∧
    (SRS.recordReview (SRS.recordReview (SRS.recordReview SRS.freshItem 5) 5) 5).intervalDays
      = 17 ∧
    ¬ (SRS.recordReview (SRS.recordReview (SRS.recordReview SRS.freshItem 5) 5) 5).intervalDays
      = 16 := by
  refine ⟨by with_unfolding_all rfl, by with_unfolding_all rfl,
    by with_unfolding_all rfl, ?_⟩
  intro h
  rw [show (SRS.recordReview (SRS.recordReview (SRS.recordReview SRS.freshItem 5) 5)
    5).intervalDays = 17 by with_unfolding_all rfl] at h
  exact absurd h (by decide)

/-- C1 (corrected): a fresh `ReviewItem` reviewed three times with quality 5
has `interval_days` 1, then 6, then 17; the easiness factor after the third
call is 2.8 (= 2.5 + 3 × 0.1) and the third interval equals
ceil(6 × 2.8) = 17, as given by the update formula. -/
theorem c1_amended_intervals :
    (SRS.recordReview SRS.freshItem 5).intervalDays = 1 ∧
    (SRS.recordReview (SRS.recordReview SRS.freshItem 5) 5).intervalDays = 6 ∧
    (SRS.recordReview (SRS.recordReview (SRS.recordReview SRS.freshItem 5) 5) 5).intervalDays
      = 17 ∧
    (SRS.recordReview (SRS.recordReview (SRS.recordReview SRS.freshItem 5) 5) 5).easinessFactor
      = 14/5 ∧
    SRS.ratCeil ((6 : ℚ) * (14/5)) = 17 := by
  exact ⟨by with_unfolding_all rfl, by with_unfolding_all rfl, by with_unfolding_all rfl,
    by with_unfolding_all rfl, by with_unfolding_all rfl⟩

/-- C6 counterexample: `quality_from_exercise_result(score=0, attempts=4)`
returns 1, not the 0 demanded by the §6 table row "any attempts, score 0 →
quality 0": the `attempts > 3` branch is checked first and its lowest band
returns 1 for every score below 50, including 0. -/
theorem c6_counterexample :
    SRS.qualityFromExerciseResult 0 4 = 1 ∧ ¬ SRS.qualityFromExerciseResult 0 4 = 0 := by
  exact ⟨rfl, by decide⟩

/-- C6 (corrected): `quality_from_exercise_result` matches the §6 table on
every score and attempts count, except that the "score 0 → quality 0" row
only applies when `attempts ≤ 3`; for `attempts > 3` every score 0–49 yields
quality 1, 50–79 yields 2, and ≥ 80 yields 3. -/
theorem c6_amended_quality_table (score attempts : ℕ) :
    SRS.qualityFromExerciseResult score attempts =
      SRS.qualityTableAmended score attempts := by
  unfold SRS.qualityFromExerciseResult SRS.qualityTableAmended
  split_ifs <;> omega

/-- C8 (confirmed): starting from any item registered via `add_item` and
updated by an arbitrary review history, a further sequence of
`record_review` calls whose qualities are all ≥ 3 produces a non-decreasing
sequence of `interval_days` values; and a single `record_review` with
quality < 3 resets `repetition_count` to 0 and `interval_days` to 1 from any
prior state. -/
theorem c8_interval_monotone_and_reset :
    (∀ (history qs : List ℤ), (∀ q ∈ qs, 3 ≤ q) →
      List.Chain' (· ≤ ·)
        ((List.scanl SRS.recordReview (SRS.reviewAll SRS.freshItem history) qs).map
          SRS.Item.intervalDays)) ∧
    (∀ (it : SRS.Item) (q : ℤ), q < 3 →
      (SRS.recordReview it q).repetitionCount = 0 ∧
      (SRS.recordReview it q).intervalDays = 1) := by
  constructor
  · intro history qs hq
    exact SRS.chain_intervals qs _ (SRS.inv_reviewAll history _ SRS.inv_freshItem) hq
  · intro it q hq
    have hc : SRS.clampQuality q < 3 := by
      unfold SRS.clampQuality
      have : min 5 q < 3 := lt_of_le_of_lt (min_le_right 5 q) hq
      omega
    unfold SRS.recordReview
    simp only [hc, if_pos, if_true]
    exact ⟨trivial, trivial⟩

/-- Witness for C8 at a concrete input: history `[2]`, then qualities
`[5, 5, 5]`, and a reset call with quality 0 on a fresh item. -/
theorem c8_witness :
    (List.Chain' (· ≤ ·)
      ((List.scanl SRS.recordReview (SRS.reviewAll SRS.freshItem [2]) [5, 5, 5]).map
        SRS.Item.intervalDays)) ∧
    (SRS.recordReview SRS.freshItem 0).repetitionCount = 0 ∧
    (SRS.recordReview SRS.freshItem 0).intervalDays = 1 :=
  ⟨c8_interval_monotone_and_reset.1 [2] [5, 5, 5] (by decide),
   c8_interval_monotone_and_reset.2 SRS.freshItem 0 (by decide)⟩

/-- C9 (confirmed): for an item created by `add_item`, no sequence of
`record_review` calls (with arbitrary integer qualities) drives the
easiness factor below 1.3. -/
theorem c9_easiness_floor (qs : List ℤ) :
    13/10 ≤ (SRS.reviewAll SRS.freshItem qs).easinessFactor :=
  (SRS.inv_reviewAll qs SRS.freshItem SRS.inv_freshItem).2.2.2

namespace Prereqs

theorem requiredMissing_subset_missing (prereqs : List Prereq)
    (statusOf : String → PrereqStatus) (h : (classify statusOf prereqs).2.1 = []) :
    requiredMissing prereqs statusOf = [] := by
  unfold requiredMissing
  rw [h]
  simp [List.filter_eq_nil_iff]

end Prereqs

/-- C4 counterexample: for the cyclic pair of required edges A→B→A,
`_topological_sort` returns a plain list that contains neither A nor B —
the stuck nodes are silently omitted, and no `UnresolvableDependency`
diagnostic naming them exists anywhere in the code or its output. -/
theorem c4_counterexample :
    (Prereqs.topologicalSort "A" ["B", "A"] Prereqs.cyclicPair).contains "A" = false ∧
    (Prereqs.topologicalSort "A" ["B", "A"] Prereqs.cyclicPair).contains "B" = false := by
  exact ⟨by with_unfolding_all rfl, by with_unfolding_all rfl⟩

/-- C4 (corrected): on a cycle among required edges the topological-order
operation does not raise — Kahn's loop terminates with the cyclic nodes
still at positive in-degree — but instead of reporting an
`UnresolvableDependency` diagnostic it silently omits the stuck nodes: for
the cyclic pair A→B→A the returned order is the empty list, from either
requested target. -/
theorem c4_amended_cycle_silent :
    Prereqs.topologicalSort "A" ["B", "A"] Prereqs.cyclicPair = [] ∧
    Prereqs.topologicalSort "B" ["A", "B"] Prereqs.cyclicPair = [] := by
  exact ⟨by with_unfolding_all rfl, by with_unfolding_all rfl⟩

theorem perm_insertBy (le : α → α → Bool) (a : α) (l : List α) :
    List.Perm (insertBy le a l) (a :: l) := by
  induction l with
  | nil => rfl
  | cons b l ih =>
    unfold insertBy
    by_cases h : le a b
    · simp [h]
    · simp only [h, if_neg, if_false, Bool.false_eq_true]
      exact ((ih.cons b).trans (List.Perm.swap a b l))

theorem perm_sortBy (le : α → α → Bool) (l : List α) : List.Perm (sortBy le l) l := by
  induction l with
  | nil => rfl
  | cons a l ih => exact (perm_insertBy le a (sortBy le l)).trans (ih.cons a)

theorem mem_insertBy {le : α → α → Bool} {a x : α} {l : List α}
    (h : x ∈ insertBy le a l) : x = a ∨ x ∈ l :=
  List.mem_cons.mp ((perm_insertBy le a l).mem_iff.mp h)

theorem pairwise_insertBy {le : α → α → Bool}
    (htot : ∀ a b, le a b = true ∨ le b a = true)
    (htrans : ∀ a b c, le a b = true → le b c = true → le a c = true)
    (a : α) {l : List α} (h : List.Pairwise (fun x y => le x y = true) l) :
    List.Pairwise (fun x y => le x y = true) (insertBy le a l) := by
  induction l with
  | nil => simp [insertBy]
  | cons b l ih =>
    obtain ⟨hb, hl⟩ := List.pairwise_cons.mp h
    unfold insertBy
    by_cases hab : le a b
    · simp only [hab, if_pos, if_true]
      refine List.pairwise_cons.mpr ⟨?_, h⟩
      intro y hy
      rcases List.mem_cons.mp hy with rfl | hy'
      · exact hab
      · exact htrans a b y hab (hb y hy')
    · simp only [hab, if_neg, if_false, Bool.false_eq_true]
      refine List.pairwise_cons.mpr ⟨?_, ih hl⟩
      intro y hy
      rcases mem_insertBy hy with rfl | hy'
      · rcases htot y b with h' | h'
        · exact absurd h' hab
        · exact h'
      · exact hb y hy'

theorem pairwise_sortBy {le : α → α → Bool}
    (htot : ∀ a b, le a b = true ∨ le b a = true)
    (htrans : ∀ a b c, le a b = true → le b c = true → le a c = true)
    (l : List α) :
    List.Pairwise (fun x y => le x y = true) (sortBy le l) := by
  induction l with
  | nil => simp [sortBy]
  | cons a l ih => exact pairwise_insertBy htot htrans a ih

/-- C7 (confirmed): for every topic (its prerequisite edge list) and every
prerequisite-status assignment, `check_readiness` returns the level of the
decision table (any required prerequisite missing → blocked; else any
missing → not_ready; else any partial → mostly_ready; else ready), the
fixed per-level confidence (1.0 / 0.7 / 0.4 / 0.2), and estimated prep
minutes `30 × |missing| + 15 × |partial|`. -/
theorem c7_readiness_table (prereqs : List Prereqs.Prereq)
    (statusOf : String → Prereqs.PrereqStatus) :
    (Prereqs.checkReadiness prereqs statusOf).readiness
      = Prereqs.levelTable (Prereqs.checkReadiness prereqs statusOf).missing
          (Prereqs.checkReadiness prereqs statusOf).pending
          (Prereqs.requiredMissing prereqs statusOf) ∧
    (Prereqs.checkReadiness prereqs statusOf).confidence
      = Prereqs.confidenceTable (Prereqs.checkReadiness prereqs statusOf).readiness ∧
    (Prereqs.checkReadiness prereqs statusOf).prepMinutes
      = 30 * (Prereqs.checkReadiness prereqs statusOf).missing.length
        + 15 * (Prereqs.checkReadiness prereqs statusOf).pending.length := by
  simp only [Prereqs.checkReadiness]
  split_ifs with h1 h2 h3 h4
  · obtain ⟨hm, hp⟩ := h1
    have hr := Prereqs.requiredMissing_subset_missing prereqs statusOf hm
    refine ⟨?_, rfl, by dsimp only; omega⟩
    simp [Prereqs.levelTable, hm, hp, hr]
  · exact absurd ⟨h3, h4⟩ h1
  · refine ⟨?_, rfl, by dsimp only; omega⟩
    simp [Prereqs.levelTable, h2, h3, h4]
  · refine ⟨?_, rfl, by dsimp only; omega⟩
    simp [Prereqs.levelTable, h2, h3]
  · refine ⟨?_, rfl, by dsimp only; omega⟩
    simp [Prereqs.levelTable, h2]

/-- C2 counterexample: with 7 hours/week over 7 study days (60-minute daily
budget) and an exam 10 days away, `generate_plan` puts a 60-minute study
session and the injected 120-minute simulation session on day 3: that day
carries 180 planned minutes, exceeding the 60-minute budget. -/
theorem c2_counterexample :
    ((Planner.generatePlan (some simExam10) (some 7) "balanced" budgetCfg
        (fun _ => Planner.TopicStatus.new) 0).map
      (fun p => ((p.sessions.filter fun s => s.date == 3).map
        Planner.StudySession.durationMinutes).sum)) = .ok 180 ∧
    (7 : ℚ) / 7 * 60 = 60 ∧ ¬ ((180 : ℤ) ≤ 60) := by
  refine ⟨by with_unfolding_all rfl, by norm_num, by decide⟩

/-- C3 counterexample: with `hours_per_week = 0` and an exam 10 days away,
`generate_plan` returns a plan whose session list is NOT empty (it contains
the injected simulation sessions); and with `hours_per_week = -7`, no exam
and one uncovered topic it returns confidence 10, not 0. -/
theorem c3_counterexample :
    ((Planner.generatePlan (some simExam10) (some 0) "balanced" zeroHoursCfg
        (fun _ => Planner.TopicStatus.new) 0).map
      (fun p => decide (p.sessions = []))) = .ok false ∧
    ((Planner.generatePlan none (some (-7)) "balanced" negHoursCfg
        (fun _ => Planner.TopicStatus.new) 0).map
      (fun p => p.confidenceScore)) = .ok 10 ∧
    ¬ (10 : ℚ) = 0 := by
  refine ⟨by with_unfolding_all rfl, by with_unfolding_all rfl, by norm_num⟩

/-- C5 counterexample: a weight-50 `new` topic with order 0 and no exam gets
priority 50 × 2 + 30 = 130, not 50/100 × 2 + 30 = 31: the code multiplies
the raw percentage weight by 2, not weight/100. -/
theorem c5_counterexample :
    Planner.calculatePriority (fun _ => Planner.TopicStatus.new) none weightedUnit = 130 ∧
    ¬ Planner.calculatePriority (fun _ => Planner.TopicStatus.new) none weightedUnit
      = 50 / 100 * 2 + 30 := by
  refine ⟨by with_unfolding_all rfl, ?_⟩
  rw [show Planner.calculatePriority (fun _ => Planner.TopicStatus.new) none weightedUnit
    = 130 by with_unfolding_all rfl]
  norm_num

theorem daysAvailable_ge_one (exam : Option Planner.ExamInfo) :
    (1 : ℤ) ≤ Planner.daysAvailableFor exam := by
  cases exam with
  | none => norm_num [Planner.daysAvailableFor]
  | some e => exact le_max_left _ _

/-- C10 (confirmed): when every syllabus unit's status is outside
{new, in_progress, rusty} (so `_get_topics_to_cover` is empty and the hours
needed are 0) and the resolved weekly hours are non-zero (with a non-empty
study-day list so session generation succeeds), `generate_plan` propagates
a `ZeroDivisionError` from the unguarded `available / needed` division in
`_calculate_confidence` instead of returning a plan. -/
theorem c10_zero_division_confidence (cfg : Planner.UniversityConfig)
    (statusOf : String → Planner.TopicStatus) (todayWeekday : ℕ)
    (targetExam : Option Planner.ExamInfo) (strategy : String) (w : ℚ)
    (hsd : ¬ cfg.learnerProfile.studyDays.length = 0)
    (hcover : Planner.topicsToCover cfg.syllabusUnits statusOf = [])
    (hw : ¬ w = 0) :
    Planner.generatePlan targetExam (some w) strategy cfg statusOf todayWeekday
      = .error .zeroDivision := by
  have hday := daysAvailable_ge_one (Planner.resolveExam targetExam cfg.exams)
  simp only [Planner.generatePlan, hcover, List.map_nil, List.sum_nil]
  generalize hres : Planner.resolveExam targetExam cfg.exams = exam at *
  generalize hd : Planner.daysAvailableFor exam = d at *
  have hdq : ((d : ℚ)) ≠ 0 := by
    have : (0 : ℤ) < d := lt_of_lt_of_le one_pos hday
    exact_mod_cast ne_of_gt (by exact_mod_cast this : (0 : ℚ) < (d : ℚ))
  have havail : ((d : ℚ) / 7) * w ≠ 0 :=
    mul_ne_zero (div_ne_zero hdq (by norm_num)) hw
  simp only [Planner.generateSessions, hsd, if_neg, if_false]
  simp only [Planner.calculateConfidence, havail, if_neg, if_false, if_pos, if_true]

/-- Witness for C10: a concrete config with one mastered unit, one study
day and 7 hours/week makes `generate_plan` raise `ZeroDivisionError`. -/
theorem c10_witness :
    ¬ coveredCfg.learnerProfile.studyDays.length = 0 ∧
    Planner.topicsToCover coveredCfg.syllabusUnits
      (fun _ => Planner.TopicStatus.mastered) = [] ∧
    ¬ (7 : ℚ) = 0 ∧
    Planner.generatePlan none (some 7) "balanced" coveredCfg
      (fun _ => Planner.TopicStatus.mastered) 0 = .error .zeroDivision :=
  ⟨by decide, by with_unfolding_all rfl, by norm_num,
   c10_zero_division_confidence coveredCfg (fun _ => Planner.TopicStatus.mastered) 0
     none "balanced" 7 (by decide) (by with_unfolding_all rfl) (by norm_num)⟩

/-- C5 (corrected): the priority score is `weight × 2` (the raw percentage
weight, not `weight/100 × 2`), plus the status priority from the table,
plus 30 when the topic is in the current exam's topic set, minus
`order × 0.5`; and `_prioritize_topics` returns the topics sorted by this
score in descending order. -/
theorem c5_amended_priority_formula (statusOf : String → Planner.TopicStatus)
    (exam : Option Planner.ExamInfo) (topics : List Planner.SyllabusUnit)
    (t : Planner.SyllabusUnit) :
    Planner.calculatePriority statusOf exam t
      = t.weight * 2 + Planner.statusPriority (statusOf t.id)
        + (match exam with
           | some e => if e.topicsIncluded.contains t.id then (30 : ℚ) else 0
           | none => 0)
        - t.order * (1/2) ∧
    List.Pairwise (fun a b => Planner.calculatePriority statusOf exam b
      ≤ Planner.calculatePriority statusOf exam a)
      (Planner.prioritizeTopics topics statusOf exam) := by
  constructor
  · unfold Planner.calculatePriority
    cases exam with
    | none => ring
    | some e =>
      by_cases hin : e.topicsIncluded.contains t.id
      · simp only [hin, if_pos, if_true]
        ring
      · simp only [hin, if_neg, if_false, Bool.false_eq_true]
        ring
  · have htot : ∀ a b : Planner.SyllabusUnit,
        decide (Planner.calculatePriority statusOf exam b
          ≤ Planner.calculatePriority statusOf exam a) = true ∨
        decide (Planner.calculatePriority statusOf exam a
          ≤ Planner.calculatePriority statusOf exam b) = true := by
      intro a b
      rcases le_total (Planner.calculatePriority statusOf exam b)
        (Planner.calculatePriority statusOf exam a) with h | h
      · exact Or.inl (decide_eq_true h)
      · exact Or.inr (decide_eq_true h)
    have htrans : ∀ a b c : Planner.SyllabusUnit,
        decide (Planner.calculatePriority statusOf exam b
          ≤ Planner.calculatePriority statusOf exam a) = true →
        decide (Planner.calculatePriority statusOf exam c
          ≤ Planner.calculatePriority statusOf exam b) = true →
        decide (Planner.calculatePriority statusOf exam c
          ≤ Planner.calculatePriority statusOf exam a) = true := by
      intro a b c hab hbc
      exact decide_eq_true (le_trans (of_decide_eq_true hbc) (of_decide_eq_true hab))
    have := pairwise_sortBy htot htrans topics
    exact this.imp (fun h => of_decide_eq_true h)

theorem ratFloor_eq_floor (q : ℚ) : Rat.floor q = ⌊q⌋ := by
  rw [Rat.floor_def', Rat.floor_def]

theorem dailyBudget_zero (n : ℕ) : Planner.dailyBudget 0 n = 0 := by
  unfold Planner.dailyBudget Planner.pyInt
  rw [zero_div, zero_mul, if_neg (lt_irrefl 0), ratFloor_eq_floor]
  exact Int.floor_zero

theorem dayLoop_nonpos (sortedTopics : List Planner.SyllabusUnit)
    (statusOf : String → Planner.TopicStatus) (dailyMinutes sessionDuration : ℤ)
    (startTime : String) (currentDate : ℤ) (hd : dailyMinutes ≤ 0)
    (fuel : ℕ) (st : Planner.GenState) :
    Planner.dayLoop sortedTopics statusOf dailyMinutes sessionDuration startTime
      currentDate fuel st 0 = ([], st) := by
  cases fuel with
  | zero => rfl
  | succ f =>
    unfold Planner.dayLoop
    rw [if_neg]
    intro h
    have : ¬ (0 : ℚ) < (dailyMinutes : ℚ) := not_lt.mpr (by exact_mod_cast hd)
    exact absurd h.1 this

theorem daysLoop_nonpos (sortedTopics : List Planner.SyllabusUnit)
    (statusOf : String → Planner.TopicStatus) (dailyMinutes sessionDuration : ℤ)
    (startTime : String) (studyDayNums : List ℕ) (todayWeekday : ℕ)
    (hd : dailyMinutes ≤ 0) :
    ∀ (n offset : ℕ) (st : Planner.GenState),
      Planner.daysLoop sortedTopics statusOf dailyMinutes sessionDuration
        startTime studyDayNums todayWeekday offset n st = ([], st) := by
  intro n
  induction n with
  | zero => intro offset st; rfl
  | succ n ih =>
    intro offset st
    unfold Planner.daysLoop
    by_cases hmem : studyDayNums.contains ((todayWeekday + offset) % 7)
    · simp only [hmem, if_pos, if_true,
        dayLoop_nonpos sortedTopics statusOf dailyMinutes sessionDuration
          startTime (offset : ℤ) hd, ih (offset + 1) st, List.nil_append]
    · simp only [hmem, if_neg, if_false, Bool.false_eq_true, ih (offset + 1) st]

theorem mem_simulationSessions {exam : Option Planner.ExamInfo}
    {s : Planner.StudySession} (h : s ∈ Planner.simulationSessions exam) :
    s.sessionType = Planner.SessionType.simulate := by
  cases exam with
  | none => simp [Planner.simulationSessions] at h
  | some e =>
    unfold Planner.simulationSessions at h
    dsimp only at h
    by_cases h3 : 3 < e.daysUntil
    · rw [if_pos h3] at h
      obtain ⟨off, _, rfl⟩ := List.mem_map.mp h
      rfl
    · rw [if_neg h3] at h
      exact absurd h (List.not_mem_nil s)

theorem regularSessions_zero_hpw (topics : List Planner.SyllabusUnit)
    (statusOf : String → Planner.TopicStatus) (profile : Planner.LearnerProfile)
    (daysAvailable : ℤ) (exam : Option Planner.ExamInfo) (todayWeekday : ℕ) :
    Planner.regularSessions topics statusOf profile daysAvailable 0 exam todayWeekday
      = [] := by
  unfold Planner.regularSessions
  rw [dailyBudget_zero,
    daysLoop_nonpos _ statusOf 0 profile.preferredSessionMinutes
      profile.preferredTime profile.studyDays todayWeekday (le_refl 0)]

/-- C3 (corrected): for `hours_per_week = 0` (with a non-empty study-day
list), `generate_plan` does not raise and returns a plan with
`confidence_score = 0` whose sessions are exclusively injected
exam-simulation sessions; when no target exam resolves the session list is
empty.  (The original claim fails in two ways: with a target exam more than
3 days away the session list is non-empty, and for negative
`hours_per_week` the confidence bucket computation returns 10, not 0.) -/
theorem c3_amended_zero_hours (cfg : Planner.UniversityConfig)
    (statusOf : String → Planner.TopicStatus) (todayWeekday : ℕ)
    (targetExam : Option Planner.ExamInfo) (strategy : String)
    (hsd : ¬ cfg.learnerProfile.studyDays.length = 0) :
    ∃ p, Planner.generatePlan targetExam (some 0) strategy cfg statusOf todayWeekday
        = .ok p ∧
      p.confidenceScore = 0 ∧
      (∀ s ∈ p.sessions, s.sessionType = Planner.SessionType.simulate) ∧
      (Planner.resolveExam targetExam cfg.exams = none → p.sessions = []) := by
  simp only [Planner.generatePlan, Planner.generateSessions, hsd, if_neg, if_false,
    mul_zero, Planner.calculateConfidence, if_pos]
  refine ⟨_, rfl, rfl, ?_, ?_⟩
  · intro s hs
    have hmem := (perm_sortBy Planner.sessionLE _).mem_iff.mp hs
    rw [Planner.sessionsFor, regularSessions_zero_hpw, List.nil_append] at hs
    exact mem_simulationSessions ((perm_sortBy Planner.sessionLE _).mem_iff.mp hs)
  · intro hnone
    rw [Planner.sessionsFor, regularSessions_zero_hpw, List.nil_append, hnone]
    rfl

/-- Witness for C3 (amended): the single-study-day config with an exam 10
days away and `hours_per_week = 0`. -/
theorem c3_amended_zero_hours_witness :
    ¬ zeroHoursCfg.learnerProfile.studyDays.length = 0 ∧
    ∃ p, Planner.generatePlan (some simExam10) (some 0) "balanced" zeroHoursCfg
        (fun _ => Planner.TopicStatus.new) 0 = .ok p ∧
      p.confidenceScore = 0 ∧
      (∀ s ∈ p.sessions, s.sessionType = Planner.SessionType.simulate) ∧
      (Planner.resolveExam (some simExam10) zeroHoursCfg.exams = none → p.sessions = []) :=
  ⟨by decide,
   c3_amended_zero_hours zeroHoursCfg (fun _ => Planner.TopicStatus.new) 0
     (some simExam10) "balanced" (by decide)⟩

theorem pyInt_le_self {q : ℚ} (h : 0 ≤ q) : (Planner.pyInt q : ℚ) ≤ q := by
  unfold Planner.pyInt
  rw [if_neg (not_lt.mpr h), ratFloor_eq_floor]
  exact Int.floor_le q

theorem sessionTypeFor_ne_simulate (t : Planner.TopicStatus) :
    ¬ Planner.sessionTypeFor t = Planner.SessionType.simulate := by
  cases t <;> simp [Planner.sessionTypeFor]

theorem dayLoop_mem (sortedTopics : List Planner.SyllabusUnit)
    (statusOf : String → Planner.TopicStatus) (dailyMinutes sessionDuration : ℤ)
    (startTime : String) (currentDate : ℤ) :
    ∀ (fuel : ℕ) (st : Planner.GenState) (mp : ℚ) (s : Planner.StudySession),
      s ∈ (Planner.dayLoop sortedTopics statusOf dailyMinutes sessionDuration
        startTime currentDate fuel st mp).1 →
      s.date = currentDate ∧ ¬ s.sessionType = Planner.SessionType.simulate := by
  intro fuel
  induction fuel with
  | zero => intro st mp s hs; exact absurd hs (List.not_mem_nil s)
  | succ f ih =>
    intro st mp s hs
    unfold Planner.dayLoop at hs
    dsimp only at hs
    split_ifs at hs with h hav hrem
    · exact ih _ _ _ hs
    · dsimp only at hs
      rcases List.mem_cons.mp hs with rfl | hs1
      · exact ⟨rfl, sessionTypeFor_ne_simulate _⟩
      · exact ih _ _ _ hs1
    · dsimp only at hs
      rcases List.mem_cons.mp hs with rfl | hs1
      · exact ⟨rfl, sessionTypeFor_ne_simulate _⟩
      · exact ih _ _ _ hs1
    · exact absurd hs (List.not_mem_nil s)

theorem dayLoop_sum (sortedTopics : List Planner.SyllabusUnit)
    (statusOf : String → Planner.TopicStatus) (dailyMinutes sessionDuration : ℤ)
    (startTime : String) (currentDate : ℤ) :
    ∀ (fuel : ℕ) (st : Planner.GenState) (mp : ℚ),
      ((((Planner.dayLoop sortedTopics statusOf dailyMinutes sessionDuration
          startTime currentDate fuel st mp).1.map
            Planner.StudySession.durationMinutes).sum : ℤ) : ℚ)
        ≤ max 0 ((dailyMinutes : ℚ) - mp) := by
  intro fuel
  induction fuel with
  | zero =>
    intro st mp
    simp only [Planner.dayLoop, List.map_nil, List.sum_nil, Int.cast_zero]
    exact le_max_left _ _
  | succ f ih =>
    intro st mp
    unfold Planner.dayLoop
    dsimp only
    split_ifs with h hav hrem
    · exact ih _ mp
    · simp only [List.map_cons, List.sum_cons]
      rw [Int.cast_add]
      set AV := min (min ((sessionDuration : ℚ)) ((dailyMinutes : ℚ) - mp))
        (st.remaining (sortedTopics.getD st.topicIdx Planner.defaultUnit).id * 60) with hAV
      have hav15 : (15 : ℚ) ≤ AV := not_lt.mp hav
      have h0 : (0 : ℚ) ≤ AV := le_trans (by norm_num) hav15
      have h1 := pyInt_le_self h0
      have hle : AV ≤ (dailyMinutes : ℚ) - mp :=
        le_trans (min_le_left _ _) (min_le_right _ _)
      have hsub : (0 : ℚ) ≤ (dailyMinutes : ℚ) - mp := le_of_lt (sub_pos.mpr h.1)
      rw [max_eq_right hsub]
      refine le_trans (add_le_add h1 (ih _ _)) ?_
      rw [max_eq_right (by linarith : (0 : ℚ) ≤ (dailyMinutes : ℚ) - (mp + AV))]
      linarith
    · simp only [List.map_cons, List.sum_cons]
      rw [Int.cast_add]
      set AV := min (min ((sessionDuration : ℚ)) ((dailyMinutes : ℚ) - mp))
        (st.remaining (sortedTopics.getD st.topicIdx Planner.defaultUnit).id * 60) with hAV
      have hav15 : (15 : ℚ) ≤ AV := not_lt.mp hav
      have h0 : (0 : ℚ) ≤ AV := le_trans (by norm_num) hav15
      have h1 := pyInt_le_self h0
      have hle : AV ≤ (dailyMinutes : ℚ) - mp :=
        le_trans (min_le_left _ _) (min_le_right _ _)
      have hsub : (0 : ℚ) ≤ (dailyMinutes : ℚ) - mp := le_of_lt (sub_pos.mpr h.1)
      rw [max_eq_right hsub]
      refine le_trans (add_le_add h1 (ih _ _)) ?_
      rw [max_eq_right (by linarith : (0 : ℚ) ≤ (dailyMinutes : ℚ) - (mp + AV))]
      linarith
    · simp only [List.map_nil, List.sum_nil, Int.cast_zero]
      exact le_max_left _ _

theorem daysLoop_mem (sortedTopics : List Planner.SyllabusUnit)
    (statusOf : String → Planner.TopicStatus) (dailyMinutes sessionDuration : ℤ)
    (startTime : String) (studyDayNums : List ℕ) (todayWeekday : ℕ) :
    ∀ (n offset : ℕ) (st : Planner.GenState) (s : Planner.StudySession),
      s ∈ (Planner.daysLoop sortedTopics statusOf dailyMinutes sessionDuration
        startTime studyDayNums todayWeekday offset n st).1 →
      (offset : ℤ) ≤ s.date ∧ ¬ s.sessionType = Planner.SessionType.simulate := by
  intro n
  induction n with
  | zero => intro offset st s hs; exact absurd hs (List.not_mem_nil s)
  | succ n ih =>
    intro offset st s hs
    unfold Planner.daysLoop at hs
    split_ifs at hs with hmem
    · dsimp only at hs
      rcases List.mem_append.mp hs with h1 | h2
      · have hd := dayLoop_mem sortedTopics statusOf dailyMinutes sessionDuration
          startTime (offset : ℤ) _ _ _ _ h1
        exact ⟨le_of_eq hd.1.symm, hd.2⟩
      · have hr := ih (offset + 1) _ _ h2
        refine ⟨?_, hr.2⟩
        have h1n : ((offset + 1 : ℕ) : ℤ) ≤ s.date := hr.1
        push_cast at h1n
        linarith
    · have hr := ih (offset + 1) _ _ hs
      refine ⟨?_, hr.2⟩
      have h1n : ((offset + 1 : ℕ) : ℤ) ≤ s.date := hr.1
      push_cast at h1n
      linarith

theorem daysLoop_filter_sum (sortedTopics : List Planner.SyllabusUnit)
    (statusOf : String → Planner.TopicStatus) (dailyMinutes sessionDuration : ℤ)
    (startTime : String) (studyDayNums : List ℕ) (todayWeekday : ℕ) (d : ℤ) :
    ∀ (n offset : ℕ) (st : Planner.GenState),
      ((((Planner.daysLoop sortedTopics statusOf dailyMinutes sessionDuration
          startTime studyDayNums todayWeekday offset n st).1.filter
            (fun s => s.date == d)).map Planner.StudySession.durationMinutes).sum : ℚ)
        ≤ max 0 ((dailyMinutes : ℚ)) := by
  intro n
  induction n with
  | zero =>
    intro offset st
    simp only [Planner.daysLoop, List.filter_nil, List.map_nil, List.sum_nil, Int.cast_zero]
    exact le_max_left _ _
  | succ n ih =>
    intro offset st
    unfold Planner.daysLoop
    split_ifs with hmem
    · dsimp only
      set day := Planner.dayLoop sortedTopics statusOf dailyMinutes sessionDuration
        startTime (offset : ℤ) (Planner.dayFuel sortedTopics dailyMinutes) st 0 with hday
      set rest := Planner.daysLoop sortedTopics statusOf dailyMinutes sessionDuration
        startTime studyDayNums todayWeekday (offset + 1) n day.2 with hrest
      rw [List.filter_append, List.map_append, List.sum_append, Int.cast_add]
      by_cases hd : (offset : ℤ) = d
      · have hfd : day.1.filter (fun s => s.date == d) = day.1 :=
          List.filter_eq_self.mpr (fun s hs => by
            have h1 := (dayLoop_mem sortedTopics statusOf dailyMinutes sessionDuration
              startTime (offset : ℤ) _ _ _ _ hs).1
            rw [h1, hd]
            exact beq_self_eq_true d)
        have hfr : rest.1.filter (fun s => s.date == d) = [] :=
          List.filter_eq_nil_iff.mpr (fun s hs => by
            have h1 := (daysLoop_mem sortedTopics statusOf dailyMinutes sessionDuration
              startTime studyDayNums todayWeekday n (offset + 1) _ _ hs).1
            intro hbeq
            have h2 : s.date = d := beq_iff_eq.mp hbeq
            push_cast at h1
            omega)
        rw [hfd, hfr]
        simp only [List.map_nil, List.sum_nil, Int.cast_zero, add_zero]
        have hsum := dayLoop_sum sortedTopics statusOf dailyMinutes sessionDuration
          startTime (offset : ℤ) (Planner.dayFuel sortedTopics dailyMinutes) st 0
        rw [sub_zero] at hsum
        exact hsum
      · have hfd : day.1.filter (fun s => s.date == d) = [] :=
          List.filter_eq_nil_iff.mpr (fun s hs => by
            have h1 := (dayLoop_mem sortedTopics statusOf dailyMinutes sessionDuration
              startTime (offset : ℤ) _ _ _ _ hs).1
            intro hbeq
            exact hd (h1.symm.trans (beq_iff_eq.mp hbeq)))
        rw [hfd]
        simp only [List.map_nil, List.sum_nil, Int.cast_zero, zero_add]
        exact ih (offset + 1) _
    · exact ih (offset + 1) st

theorem generatePlan_ok_inv (cfg : Planner.UniversityConfig)
    (statusOf : String → Planner.TopicStatus) (todayWeekday : ℕ)
    (targetExam : Option Planner.ExamInfo) (strategy : String) (w : ℚ)
    (p : Planner.StudyPlan)
    (hp : Planner.generatePlan targetExam (some w) strategy cfg statusOf todayWeekday
      = .ok p) :
    ¬ cfg.learnerProfile.studyDays.length = 0 ∧
    p.sessions = Planner.sessionsFor (Planner.topicsToCover cfg.syllabusUnits statusOf)
      statusOf cfg.learnerProfile
      (Planner.daysAvailableFor (Planner.resolveExam targetExam cfg.exams)) w
      (Planner.resolveExam targetExam cfg.exams) todayWeekday := by
  by_cases hsd : cfg.learnerProfile.studyDays.length = 0
  · exfalso
    simp only [Planner.generatePlan, Planner.generateSessions, hsd, if_pos, if_true] at hp
    exact Except.noConfusion hp
  · refine ⟨hsd, ?_⟩
    simp only [Planner.generatePlan, Planner.generateSessions, hsd, if_neg, if_false] at hp
    split at hp
    · exact (Except.noConfusion hp)
    · injection hp with h
      rw [← h]

/-- C2 (corrected): in every plan returned by `generate_plan` (with
non-negative weekly hours), for every calendar date the sum of
`duration_minutes` of that day's NON-simulation sessions is at most the
day's configured budget `hours_per_week / |study_days| × 60`; the injected
exam-simulation sessions are placed with no budget check and can push a
day's total beyond the budget. -/
theorem c2_amended_budget (cfg : Planner.UniversityConfig)
    (statusOf : String → Planner.TopicStatus) (todayWeekday : ℕ)
    (targetExam : Option Planner.ExamInfo) (strategy : String) (w : ℚ) (d : ℤ)
    (p : Planner.StudyPlan) (hw : 0 ≤ w)
    (hp : Planner.generatePlan targetExam (some w) strategy cfg statusOf todayWeekday
      = .ok p) :
    (((p.sessions.filter (fun s => s.date == d
        && !(s.sessionType == Planner.SessionType.simulate))).map
          Planner.StudySession.durationMinutes).sum : ℚ)
      ≤ w / (cfg.learnerProfile.studyDays.length : ℚ) * 60 := by
  obtain ⟨hsd, hsess⟩ := generatePlan_ok_inv cfg statusOf todayWeekday targetExam
    strategy w p hp
  rw [hsess, Planner.sessionsFor, Planner.regularSessions]
  set EX := Planner.resolveExam targetExam cfg.exams with hEX
  set SORTED := Planner.prioritizeTopics
    (Planner.topicsToCover cfg.syllabusUnits statusOf) statusOf EX with hSORTED
  set DM := Planner.dailyBudget w cfg.learnerProfile.studyDays.length with hDM
  have hperm := perm_sortBy Planner.sessionLE
    ((Planner.daysLoop SORTED statusOf DM cfg.learnerProfile.preferredSessionMinutes
      cfg.learnerProfile.preferredTime cfg.learnerProfile.studyDays todayWeekday 0
      (max 0 (Planner.daysAvailableFor EX)).toNat
      ⟨0, 0, Planner.initialRemaining SORTED⟩).1 ++ Planner.simulationSessions EX)
  have hsum := ((hperm.filter (fun s => s.date == d
    && !(s.sessionType == Planner.SessionType.simulate))).map
      Planner.StudySession.durationMinutes).sum_eq
  rw [hsum, List.filter_append, List.map_append, List.sum_append]
  have hsim : (Planner.simulationSessions EX).filter (fun s => s.date == d
      && !(s.sessionType == Planner.SessionType.simulate)) = [] := by
    refine List.filter_eq_nil_iff.mpr (fun s hs => ?_)
    have hsimu := mem_simulationSessions hs
    simp [hsimu]
  rw [hsim]
  simp only [List.map_nil, List.sum_nil, add_zero]
  have hcong : (Planner.daysLoop SORTED statusOf DM
      cfg.learnerProfile.preferredSessionMinutes cfg.learnerProfile.preferredTime
      cfg.learnerProfile.studyDays todayWeekday 0
      (max 0 (Planner.daysAvailableFor EX)).toNat
      ⟨0, 0, Planner.initialRemaining SORTED⟩).1.filter
        (fun s => s.date == d && !(s.sessionType == Planner.SessionType.simulate))
      = (Planner.daysLoop SORTED statusOf DM
      cfg.learnerProfile.preferredSessionMinutes cfg.learnerProfile.preferredTime
      cfg.learnerProfile.studyDays todayWeekday 0
      (max 0 (Planner.daysAvailableFor EX)).toNat
      ⟨0, 0, Planner.initialRemaining SORTED⟩).1.filter (fun s => s.date == d) := by
    refine List.filter_congr (fun s hs => ?_)
    have h2 := (daysLoop_mem SORTED statusOf DM
      cfg.learnerProfile.preferredSessionMinutes cfg.learnerProfile.preferredTime
      cfg.learnerProfile.studyDays todayWeekday _ 0 _ _ hs).2
    rw [beq_eq_false_iff_ne.mpr h2, Bool.not_false, Bool.and_true]
  rw [hcong]
  refine le_trans (daysLoop_filter_sum SORTED statusOf DM
    cfg.learnerProfile.preferredSessionMinutes cfg.learnerProfile.preferredTime
    cfg.learnerProfile.studyDays todayWeekday d _ 0 _) ?_
  have hlen : (0 : ℚ) < (cfg.learnerProfile.studyDays.length : ℚ) := by
    exact_mod_cast Nat.pos_of_ne_zero hsd
  have hbud : (0 : ℚ) ≤ w / (cfg.learnerProfile.studyDays.length : ℚ) * 60 := by
    positivity
  have hdb : ((DM : ℤ) : ℚ) ≤ w / (cfg.learnerProfile.studyDays.length : ℚ) * 60 := by
    rw [hDM]
    unfold Planner.dailyBudget
    exact pyInt_le_self hbud
  exact max_le hbud hdb

/-- Witness for C2 (amended) at a concrete input: weekly hours 0, so the
returned plan has no sessions and every day trivially meets the budget. -/
theorem c2_amended_budget_witness :
    (0 : ℚ) ≤ 0 ∧
    ((((Planner.StudyPlan.mk none [] 0 "intensive" 0).sessions.filter
        (fun s => s.date == (0 : ℤ)
          && !(s.sessionType == Planner.SessionType.simulate))).map
          Planner.StudySession.durationMinutes).sum : ℚ)
      ≤ 0 / (budgetWitnessCfg.learnerProfile.studyDays.length : ℚ) * 60 :=
  ⟨le_refl 0,
   c2_amended_budget budgetWitnessCfg (fun _ => Planner.TopicStatus.new) 0 none
     "balanced" 0 0 (Planner.StudyPlan.mk none [] 0 "intensive" 0) (le_refl 0)
     (by with_unfolding_all rfl)⟩
